import Mathlib

/-!
Verification development for the `teamspeak_auth` repository.

The development shallowly embeds the authorization core:
  * `src/teamspeak_auth/auth_service.py` (`AuthorizationService`)
  * `src/teamspeak_auth/ts_client.py` (`TeamSpeakClient`)
  * the parsed configuration values from `src/teamspeak_auth/config.py`

Conventions of the embedding:
  * Python exceptions become `Except Unit` results.
  * `None`-able Python dict fields become `Option String`.
  * Python `dict[str, dict]` becomes an association list built by an
    insert-or-overwrite operation (Python dict assignment semantics).
  * The standard-library `ipaddress` module is embedded for IPv4
    dotted-quad addresses and prefix-length CIDR networks (the forms the
    repository's configuration and TeamSpeak data use); parse failure is
    `none`, standing for Python's `ValueError`.
  * Wall-clock time (`time.time()`) is an explicit `Nat` parameter.
  * The external TeamSpeak server is an oracle (`Provider`) giving the
    outcome of each ServerQuery call.
-/

namespace TeamspeakAuth

/-! ## IPv4 addresses: embedding of the `ipaddress` stdlib calls used -/

/-- `str.split(sep)` for a one-character separator, on the character
list of the string (structural recursion, so proofs can evaluate it). -/
def splitOnChar (c : Char) : List Char → List (List Char)
  | [] => [[]]
  | x :: xs =>
    if x = c then [] :: splitOnChar c xs
    else match splitOnChar c xs with
      | [] => [[x]]
      | first :: rest => (x :: first) :: rest

/-- One dotted-quad octet, as `ipaddress` parses it: 1–3 decimal digits,
no leading zero (Python ≥ 3.9 rejects them), value ≤ 255. -/
def parseOctet (s : List Char) : Option Nat :=
  if s.length = 0 ∨ 3 < s.length then none
  else if ¬ s.all Char.isDigit then none
  else if 1 < s.length ∧ s.headI = '0' then none
  else
    let n := s.foldl (fun acc c => acc * 10 + (c.toNat - 48)) 0
    if n ≤ 255 then some n else none

/-- Four octets separated by dots, combined big-endian into one number
below 2^32. `none` models the `ValueError` raised on malformed input. -/
def parseIPv4Chars (s : List Char) : Option Nat :=
  match splitOnChar '.' s with
  | [a, b, c, d] =>
    match parseOctet a, parseOctet b, parseOctet c, parseOctet d with
    | some a', some b', some c', some d' =>
      some (a' * 16777216 + b' * 65536 + c' * 256 + d')
    | _, _, _, _ => none
  | _ => none

/-- `ipaddress.ip_address` for IPv4 dotted-quad strings. -/
def parseIPAddress (s : String) : Option Nat :=
  parseIPv4Chars s.data

/-- A parsed CIDR network: the network address with host bits cleared,
and the prefix length. -/
structure IPNetwork where
  network_address : Nat
  prefixlen : Nat
deriving Repr, DecidableEq

/-- Prefix length after `/`: decimal digits, value ≤ 32. -/
def parsePrefixLen (s : List Char) : Option Nat :=
  if s.length = 0 then none
  else if ¬ s.all Char.isDigit then none
  else
    let n := s.foldl (fun acc c => acc * 10 + (c.toNat - 48)) 0
    if n ≤ 32 then some n else none

/-- `ipaddress.ip_network(s, strict=False)` for IPv4: `a.b.c.d`
(a `/32` host network) or `a.b.c.d/p` with a numeric prefix length
(the dotted netmask form after `/` is not modelled). With
`strict=False` the host bits are masked off rather than rejected, and
more than one `/` is a parse error. -/
def parseIPNetwork (s : String) : Option IPNetwork :=
  match splitOnChar '/' s.data with
  | [addr] =>
    match parseIPv4Chars addr with
    | some a => some ⟨a, 32⟩
    | none => none
  | [addr, p] =>
    match parseIPv4Chars addr, parsePrefixLen p with
    | some a, some p' => some ⟨a / 2 ^ (32 - p') * 2 ^ (32 - p'), p'⟩
    | _, _ => none
  | _ => none

/-- `ip in subnet`: the address agrees with the network address on the
prefix bits. -/
def subnetContains (subnet : IPNetwork) (ip : Nat) : Bool :=
  ip / 2 ^ (32 - subnet.prefixlen) = subnet.network_address / 2 ^ (32 - subnet.prefixlen)

/-! ## Configuration (`config.py`, already parsed by its validators) -/

/-- The parsed configuration values the authorization core reads:
`required_server_groups` (a `list[int]` after `parse_server_groups`) and
`authorized_subnets` (a `list[str]` after `parse_authorized_subnets`). -/
structure Config where
  required_server_groups : List Int
  authorized_subnets : List String
deriving Repr

/-! ## TeamSpeak client (`ts_client.py`) -/

/-- One entry of the `clientlist(ip=True)` response. Python reads the
fields with `dict.get`, so each is an `Option String` (`none` = key
absent, modelling `dict.get` returning `None`). -/
structure RawClient where
  client_type : Option String
  client_database_id : Option String
  connection_client_ip : Option String
  client_nickname : Option String
  clid : Option String
deriving Repr, DecidableEq

/-- Oracle for the external ServerQuery session: the outcome of each
remote call during one refresh cycle. `Except.error ()` models the call
raising an exception. -/
structure Provider where
  connectOk : Bool
  clientlist : Except Unit (List RawClient)
  servergroupsbyclientid : String → Except Unit (List String)

/-- The value stored per IP by `get_authorized_clients`. -/
structure ClientEntry where
  nickname : Option String
  groups : List String
  client_id : Option String
  client_db_id : String
deriving Repr, DecidableEq

/-- Python truthiness test `not v` for an optional string: true when the
key is absent or maps to the empty string. -/
def falsyOpt : Option String → Bool
  | none => true
  | some s => s = ""

/-- Python dict assignment `d[k] = v` on an association list: overwrite
the value in place when the key exists, else append. Matches dict
semantics: later assignments win, iteration keeps first-insertion order. -/
def dictInsert (d : List (String × ClientEntry)) (k : String) (v : ClientEntry) :
    List (String × ClientEntry) :=
  if d.any (fun p => p.1 = k) then
    d.map (fun p => if p.1 = k then (k, v) else p)
  else d ++ [(k, v)]

/-- `TeamSpeakClient.get_connected_clients`: requires a live connection
(`RuntimeError` otherwise), fetches the client list (which may raise),
and keeps only clients whose `client_type` is `"0"` (filtering out
server-query clients; a missing `client_type` is also filtered out
since `None != "0"`). -/
def get_connected_clients (p : Provider) (connection : Bool) :
    Except Unit (List RawClient) :=
  if ¬ connection then Except.error ()
  else match p.clientlist with
    | Except.error e => Except.error e
    | Except.ok clients =>
      Except.ok (clients.filter (fun client => client.client_type = some "0"))

/-- `TeamSpeakClient.get_client_server_groups`: raises `RuntimeError`
when there is no connection (outside its `try`), but swallows a failure
of the remote `servergroupsbyclientid` call and returns `[]`. -/
def get_client_server_groups (p : Provider) (connection : Bool)
    (client_db_id : String) : Except Unit (List String) :=
  if ¬ connection then Except.error ()
  else match p.servergroupsbyclientid client_db_id with
    | Except.ok groups => Except.ok groups
    | Except.error _ => Except.ok []

/-- The authorization test on one client's groups:
`any(str(group) in map(str, config.required_server_groups) for group in groups)`.
Remote groups are strings; configured groups are ints rendered to
decimal strings for the comparison. -/
def groupsMatch (cfg : Config) (groups : List String) : Bool :=
  groups.any (fun group => (cfg.required_server_groups.map toString).contains group)

/-- The body of the `for client in clients` loop of
`get_authorized_clients`, processing the remaining clients against the
accumulated dict. Clients with a falsy database id or IP are skipped;
otherwise the group lookup runs (its `RuntimeError` would propagate)
and matching clients are inserted. -/
def processClients (cfg : Config) (p : Provider) (connection : Bool) :
    List RawClient → List (String × ClientEntry) →
    Except Unit (List (String × ClientEntry))
  | [], acc => Except.ok acc
  | client :: rest, acc =>
    let client_db_id := client.client_database_id
    let client_ip := client.connection_client_ip
    if falsyOpt client_db_id then processClients cfg p connection rest acc
    else if falsyOpt client_ip then processClients cfg p connection rest acc
    else match get_client_server_groups p connection (client_db_id.getD "") with
      | Except.error e => Except.error e
      | Except.ok groups =>
        if groupsMatch cfg groups then
          processClients cfg p connection rest
            (dictInsert acc (client_ip.getD "")
              ⟨client.client_nickname, groups, client.clid, client_db_id.getD ""⟩)
        else processClients cfg p connection rest acc

/-- `TeamSpeakClient.get_authorized_clients`: list connected clients,
then run the authorization loop starting from an empty dict. Any raise
propagates (the method re-raises in its `except` clause). -/
def get_authorized_clients (cfg : Config) (p : Provider) (connection : Bool) :
    Except Unit (List (String × ClientEntry)) :=
  match get_connected_clients p connection with
  | Except.error e => Except.error e
  | Except.ok clients => processClients cfg p connection clients []

/-! ## Authorization service (`auth_service.py`) -/

/-- The mutable state of `AuthorizationService` relevant to the cache:
the published snapshot `authorized_ips`, the `last_update` timestamp,
and whether `ts_client.connection` is live. -/
structure ServiceState where
  authorized_ips : List (String × ClientEntry)
  last_update : Nat
  connection : Bool
deriving Repr, DecidableEq

/-- `AuthorizationService.__init__`: empty snapshot, `last_update = 0`
(the epoch), no connection. -/
def ServiceState.init : ServiceState := ⟨[], 0, false⟩

/-- `AuthorizationService._is_in_authorized_subnet`: empty configured
list short-circuits to `False`; an unparseable IP returns `False`
(`ValueError` caught); each configured range is parsed non-strictly and
an unparseable range is skipped (inner `ValueError` caught), the loop
returning `True` on the first containment hit. -/
def is_in_authorized_subnet (cfg : Config) (ip_address : String) : Bool :=
  if cfg.authorized_subnets.isEmpty then false
  else match parseIPAddress ip_address with
    | none => false
    | some ip =>
      cfg.authorized_subnets.any (fun subnet_str =>
        match parseIPNetwork subnet_str with
        | none => false
        | some subnet => subnetContains subnet ip)

/-- `AuthorizationService.is_authorized`: subnet check first, early
`return True`; otherwise membership of the IP in the snapshot's keys. -/
def is_authorized (cfg : Config) (st : ServiceState) (ip_address : String) : Bool :=
  if is_in_authorized_subnet cfg ip_address then true
  else (st.authorized_ips.lookup ip_address).isSome

/-- `AuthorizationService.get_authorized_user_info`:
`self.authorized_ips.get(ip_address)`. -/
def get_authorized_user_info (st : ServiceState) (ip_address : String) :
    Option ClientEntry :=
  st.authorized_ips.lookup ip_address

/-- `AuthorizationService.get_cache_age`: `time.time() - self.last_update`,
with the current wall-clock time an explicit parameter. -/
def get_cache_age (now : Nat) (st : ServiceState) : Int :=
  (now : Int) - (st.last_update : Int)

/-- `AuthorizationService._fetch_authorized_clients`: connect when no
connection exists (a failed connect raises), fetch the authorized
clients, and on any raise disconnect (dropping the session) and
re-raise. Returns the outcome together with the new connection state. -/
def fetch_authorized_clients (cfg : Config) (p : Provider) (connection : Bool) :
    Except Unit (List (String × ClientEntry)) × Bool :=
  if ¬ connection ∧ ¬ p.connectOk then (Except.error (), false)
  else match get_authorized_clients cfg p true with
    | Except.ok d => (Except.ok d, true)
    | Except.error _ => (Except.error (), false)

/-- `AuthorizationService.update_authorized_users`: under the update
lock, fetch; on success publish the new snapshot and stamp
`last_update`; on any exception log and swallow it, leaving the
snapshot and timestamp untouched (only the dropped connection state
persists). -/
def update_authorized_users (cfg : Config) (p : Provider) (now : Nat)
    (st : ServiceState) : ServiceState :=
  match fetch_authorized_clients cfg p st.connection with
  | (Except.ok d, conn) => ⟨d, now, conn⟩
  | (Except.error _, conn) => { st with connection := conn }

/-- `AuthorizationService._periodic_update`: every tick sleeps then runs
`update_authorized_users`; any exception is logged and the loop
continues, so the whole schedule of ticks is processed. Each tick
carries the provider-call outcomes and the wall-clock time of that
cycle. -/
def periodic_update (cfg : Config) (ticks : List (Provider × Nat))
    (st : ServiceState) : ServiceState :=
  ticks.foldl (fun s t => update_authorized_users cfg t.1 t.2 s) st

/-! ## The refresh exclusion (`self._update_lock`, an `asyncio.Lock`)

`update_authorized_users` runs its whole body inside
`async with self._update_lock`. Each invocation (a scheduler tick or a
`refresh_now` / `POST /auth/refresh` call) is a task that requests the
lock, waits while it is held, runs one refresh cycle in its critical
section, and releases. The interleaving of any number of such tasks is
the following transition system. -/

/-- Where one invocation of `update_authorized_users` stands. -/
inductive RPhase
  | idle
  | waiting
  | critical
  | done
deriving Repr, DecidableEq

/-- Global state of the lock and every refresh invocation. `completed`
counts finished refresh cycles (each ran its own provider fetch). -/
structure LockSys where
  tasks : List RPhase
  locked : Bool
  completed : Nat
deriving Repr, DecidableEq

/-- One scheduler step: a task is invoked, acquires the free lock, or
finishes its critical section and releases. `asyncio.Lock.acquire`
suspends while `locked` is true, so a waiting task has no step then. -/
inductive LStep : LockSys → LockSys → Prop
  | request (s : LockSys) (i : Nat) :
      s.tasks.get? i = some RPhase.idle →
      LStep s ⟨s.tasks.set i RPhase.waiting, s.locked, s.completed⟩
  | acquire (s : LockSys) (i : Nat) :
      s.tasks.get? i = some RPhase.waiting →
      s.locked = false →
      LStep s ⟨s.tasks.set i RPhase.critical, true, s.completed⟩
  | release (s : LockSys) (i : Nat) :
      s.tasks.get? i = some RPhase.critical →
      LStep s ⟨s.tasks.set i RPhase.done, false, s.completed + 1⟩

/-- Initial state for `n` potential refresh invocations: lock free, no
cycle completed. -/
def LockSys.init (n : Nat) : LockSys :=
  ⟨List.replicate n RPhase.idle, false, 0⟩

/-- States an execution with `n` refresh invocations can reach. -/
def LockReachable (n : Nat) (s : LockSys) : Prop :=
  Relation.ReflTransGen LStep (LockSys.init n) s

/-- Number of refresh cycles currently executing (tasks inside the
critical section). -/
def countCritical : List RPhase → Nat
  | [] => 0
  | p :: rest => (if p = RPhase.critical then 1 else 0) + countCritical rest

/-- The lock invariant: free lock means nobody is in the critical
section, held lock means exactly one task is. -/
def LockInv (s : LockSys) : Prop :=
  (s.locked = false ∧ countCritical s.tasks = 0) ∨
    (s.locked = true ∧ countCritical s.tasks = 1)

/-! ## Derived characterizations of the refresh loop -/

/-- The groups `get_authorized_clients` ends up using for one client:
the remote lookup's result, or `[]` when that per-entity call failed
(`get_client_server_groups` swallows the failure). -/
def clientGroups (p : Provider) (client : RawClient) : List String :=
  match p.servergroupsbyclientid (client.client_database_id.getD "") with
  | Except.ok groups => groups
  | Except.error _ => []

/-- The per-client authorization decision of the refresh loop: a
non-falsy database id (stable identity key), a non-falsy network
address, and a group set intersecting the required set under string
normalization. -/
def authOk (cfg : Config) (p : Provider) (client : RawClient) : Bool :=
  !falsyOpt client.client_database_id && !falsyOpt client.connection_client_ip
    && groupsMatch cfg (clientGroups p client)

/-- The snapshot entry built for an authorized client. -/
def entryOf (p : Provider) (client : RawClient) : ClientEntry :=
  ⟨client.client_nickname, clientGroups p client, client.clid,
   client.client_database_id.getD ""⟩

/-- One iteration of the refresh loop as a pure dict update. -/
def insertStep (cfg : Config) (p : Provider)
    (d : List (String × ClientEntry)) (c : RawClient) : List (String × ClientEntry) :=
  if authOk cfg p c then dictInsert d (c.connection_client_ip.getD "") (entryOf p c)
  else d

/-- The last client in listing order that is authorized and keyed at
`ip`: later clients take precedence, like later dict assignments. -/
def lastAuthorized (cfg : Config) (p : Provider) (ip : String) :
    List RawClient → Option RawClient
  | [] => none
  | client :: rest =>
    match lastAuthorized cfg p ip rest with
    | some c => some c
    | none =>
      if authOk cfg p client && (client.connection_client_ip.getD "" == ip)
      then some client else none

/-! ## Fixtures for concrete evaluations -/

/-- Configuration with no required groups and no subnets. -/
def emptyCfg : Config := ⟨[], []⟩

/-- A provider whose every call succeeds (with an empty roster). -/
def okProvider : Provider := ⟨true, Except.ok [], fun _ => Except.ok []⟩

/-- A provider whose every call fails. -/
def failProvider : Provider := ⟨false, Except.error (), fun _ => Except.error ()⟩

/-- A cache state holding one authorized IP, refreshed at time 40, with
a live connection. -/
def sampleState : ServiceState :=
  ⟨[("1.2.3.4", ⟨some "x", ["6"], none, "9"⟩)], 40, true⟩

/-- The spec's example configuration: required groups {6, 9}, no
subnets. -/
def exampleCfg : Config := ⟨[6, 9], []⟩

/-- Example entity A: address 10.0.0.5, in group 6. -/
def clientA : RawClient := ⟨some "0", some "11", some "10.0.0.5", some "A", some "1"⟩

/-- Example entity B: address 10.0.0.6, in group 3 only. -/
def clientB : RawClient := ⟨some "0", some "12", some "10.0.0.6", some "B", some "2"⟩

/-- Example entity C: in group 9 but its address key is missing. -/
def clientC : RawClient := ⟨some "0", some "13", none, some "C", some "3"⟩

/-- A second authorized entity at A's address, listed after A. -/
def clientA2 : RawClient := ⟨some "0", some "14", some "10.0.0.5", some "A2", some "4"⟩

/-- A server-query client (type 1) with an address and matching groups. -/
def queryClient : RawClient := ⟨some "1", some "21", some "10.0.0.7", some "Q", some "5"⟩

/-- Provider reporting the spec's example roster A, B, C. -/
def exampleProvider : Provider :=
  ⟨true, Except.ok [clientA, clientB, clientC],
   fun id =>
     if id = "11" then Except.ok ["6"]
     else if id = "12" then Except.ok ["3"]
     else if id = "13" then Except.ok ["9"]
     else Except.ok []⟩

/-- Provider reporting two authorized entities at the same address. -/
def dupProvider : Provider :=
  ⟨true, Except.ok [clientA, clientA2],
   fun id =>
     if id = "11" then Except.ok ["6"]
     else if id = "14" then Except.ok ["9"]
     else Except.ok []⟩

/-- Provider whose only listed entity is a server-query client. -/
def queryProvider : Provider :=
  ⟨true, Except.ok [queryClient], fun _ => Except.ok ["6"]⟩

/-! ## Helper lemmas -/

/-- A fetch that raises always ends with the session dropped
(`disconnect` runs in the `except` clause before the re-raise). -/
lemma fetch_fail_drops_connection (cfg : Config) (p : Provider) (conn : Bool)
    (h : (fetch_authorized_clients cfg p conn).1 = Except.error ()) :
    (fetch_authorized_clients cfg p conn).2 = false := by
  unfold fetch_authorized_clients at *
  by_cases hc : ¬ conn ∧ ¬ p.connectOk
  · simp [hc]
  · simp only [if_neg hc] at *
    cases hg : get_authorized_clients cfg p true with
    | ok d => rw [hg] at h; exact absurd h (by simp)
    | error e => rfl

/-- A failed refresh cycle only records the dropped connection; the
snapshot and timestamp fields survive. -/
lemma update_fail_eq (cfg : Config) (p : Provider) (now : Nat) (st : ServiceState)
    (h : (fetch_authorized_clients cfg p st.connection).1 = Except.error ()) :
    update_authorized_users cfg p now st = { st with connection := false } := by
  unfold update_authorized_users
  rcases hf : fetch_authorized_clients cfg p st.connection with ⟨r, conn⟩
  have hconn : conn = false := by
    have := fetch_fail_drops_connection cfg p st.connection h
    rw [hf] at this
    exact this
  rw [hf] at h
  simp only at h
  subst h
  subst hconn
  rfl

/-- `List.lookup` on a cons cell, with a propositional condition. -/
lemma lookup_pair_cons (k k' : String) (v : ClientEntry)
    (t : List (String × ClientEntry)) :
    List.lookup k' ((k, v) :: t) = if k' = k then some v else List.lookup k' t := by
  rw [List.lookup_cons]
  by_cases h : k' = k
  · simp [h]
  · rw [beq_eq_false_iff_ne.mpr h]
    simp [h]

/-- Looking up a key not touched by the overwrite pass. -/
lemma lookup_map_replace_other (k k' : String) (v : ClientEntry)
    (h : k' ≠ k) (d : List (String × ClientEntry)) :
    (d.map (fun p => if p.1 = k then (k, v) else p)).lookup k' = d.lookup k' := by
  induction d with
  | nil => rfl
  | cons p t ih =>
    rcases p with ⟨pk, pv⟩
    simp only [List.map_cons]
    by_cases hp : pk = k
    · rw [if_pos hp, lookup_pair_cons, lookup_pair_cons, if_neg h,
        if_neg (hp ▸ h), ih]
    · rw [if_neg hp, lookup_pair_cons, lookup_pair_cons, ih]

/-- Looking up the overwritten key when it is present. -/
lemma lookup_map_replace_self (k : String) (v : ClientEntry)
    (d : List (String × ClientEntry)) (h : d.any (fun p => p.1 = k) = true) :
    (d.map (fun p => if p.1 = k then (k, v) else p)).lookup k = some v := by
  induction d with
  | nil => simp at h
  | cons p t ih =>
    rcases p with ⟨pk, pv⟩
    simp only [List.map_cons]
    by_cases hp : pk = k
    · rw [if_pos hp, lookup_pair_cons, if_pos rfl]
    · rw [if_neg hp, lookup_pair_cons, if_neg (fun hh => hp hh.symm)]
      simp only [List.any_cons, Bool.or_eq_true, decide_eq_true_eq] at h
      rcases h with h | h
      · exact absurd h hp
      · exact ih h

/-- Looking up in the append case, when the key was absent. -/
lemma lookup_append_single (k k' : String) (v : ClientEntry)
    (d : List (String × ClientEntry)) (h : d.any (fun p => p.1 = k) = false) :
    (d ++ [(k, v)]).lookup k' = if k' = k then some v else d.lookup k' := by
  induction d with
  | nil =>
    rw [List.nil_append, lookup_pair_cons]
  | cons p t ih =>
    rcases p with ⟨pk, pv⟩
    simp only [List.any_cons, Bool.or_eq_false_iff, decide_eq_false_iff_not] at h
    rw [List.cons_append, lookup_pair_cons, lookup_pair_cons]
    by_cases hkp : k' = pk
    · have hne : k' ≠ k := fun hh => h.1 (hkp ▸ hh)
      rw [if_pos hkp, if_neg hne, if_pos hkp]
    · rw [if_neg hkp, if_neg hkp, ih (by simp [h.2])]

/-- Python dict assignment, seen through lookup: the assigned key now
maps to the new value, every other key is untouched. -/
lemma lookup_dictInsert (d : List (String × ClientEntry)) (k k' : String)
    (v : ClientEntry) :
    (dictInsert d k v).lookup k' = if k' = k then some v else d.lookup k' := by
  unfold dictInsert
  cases hmem : d.any (fun p => p.1 = k)
  · rw [if_neg (by decide : ¬ (false = true))]
    exact lookup_append_single k k' v d hmem
  · rw [if_pos rfl]
    by_cases hk : k' = k
    · subst hk
      rw [lookup_map_replace_self k' v d hmem, if_pos rfl]
    · rw [lookup_map_replace_other k k' v hk d, if_neg hk]

/-- With a live connection the refresh loop never raises: it is the pure
left fold of `insertStep` over the listed clients. -/
lemma processClients_ok (cfg : Config) (p : Provider) (clients : List RawClient)
    (acc : List (String × ClientEntry)) :
    processClients cfg p true clients acc
      = Except.ok (clients.foldl (insertStep cfg p) acc) := by
  induction clients generalizing acc with
  | nil => rfl
  | cons client rest ih =>
    rw [List.foldl_cons]
    unfold processClients
    by_cases hdb : falsyOpt client.client_database_id
    · rw [if_pos hdb, show insertStep cfg p acc client = acc from by
        simp [insertStep, authOk, hdb]]
      exact ih acc
    · rw [if_neg hdb]
      by_cases hip : falsyOpt client.connection_client_ip
      · rw [if_pos hip, show insertStep cfg p acc client = acc from by
          simp [insertStep, authOk, hip]]
        exact ih acc
      · rw [if_neg hip]
        have hdb' : falsyOpt client.client_database_id = false := by
          revert hdb; cases falsyOpt client.client_database_id <;> simp
        have hip' : falsyOpt client.connection_client_ip = false := by
          revert hip; cases falsyOpt client.connection_client_ip <;> simp
        have hg : get_client_server_groups p true (client.client_database_id.getD "")
            = Except.ok (clientGroups p client) := by
          unfold get_client_server_groups clientGroups
          cases p.servergroupsbyclientid (client.client_database_id.getD "") <;> simp
        rw [hg]
        show (if groupsMatch cfg (clientGroups p client) then
            processClients cfg p true rest
              (dictInsert acc (client.connection_client_ip.getD "")
                ⟨client.client_nickname, clientGroups p client, client.clid,
                  client.client_database_id.getD ""⟩)
          else processClients cfg p true rest acc) = _
        by_cases hgm : groupsMatch cfg (clientGroups p client)
        · rw [if_pos hgm, show insertStep cfg p acc client
              = dictInsert acc (client.connection_client_ip.getD "") (entryOf p client)
              from by simp [insertStep, authOk, hdb', hip', hgm]]
          exact ih _
        · rw [if_neg hgm, show insertStep cfg p acc client = acc from by
            simp [insertStep, authOk, hdb', hip', hgm]]
          exact ih acc

/-- Lookup through the refresh fold: the entry of the last authorized
client keyed at `ip`, else whatever the accumulator held. -/
lemma lookup_insertSteps (cfg : Config) (p : Provider) (ip : String)
    (clients : List RawClient) (acc : List (String × ClientEntry)) :
    (clients.foldl (insertStep cfg p) acc).lookup ip
      = match lastAuthorized cfg p ip clients with
        | some c => some (entryOf p c)
        | none => acc.lookup ip := by
  induction clients generalizing acc with
  | nil => rfl
  | cons client rest ih =>
    rw [List.foldl_cons, ih]
    show _ = match (match lastAuthorized cfg p ip rest with
        | some c => some c
        | none =>
          if authOk cfg p client && (client.connection_client_ip.getD "" == ip)
          then some client else none) with
      | some c => some (entryOf p c)
      | none => acc.lookup ip
    cases hlast : lastAuthorized cfg p ip rest with
    | some c => rfl
    | none =>
      show (insertStep cfg p acc client).lookup ip = _
      by_cases ha : authOk cfg p client
      · by_cases hk : client.connection_client_ip.getD "" = ip
        · rw [show insertStep cfg p acc client
              = dictInsert acc (client.connection_client_ip.getD "") (entryOf p client)
              from by simp [insertStep, ha],
            lookup_dictInsert, if_pos hk.symm, ha,
            show (client.connection_client_ip.getD "" == ip) = true from by simp [hk]]
          rfl
        · rw [show insertStep cfg p acc client
              = dictInsert acc (client.connection_client_ip.getD "") (entryOf p client)
              from by simp [insertStep, ha],
            lookup_dictInsert, if_neg (fun hh => hk hh.symm),
            show (client.connection_client_ip.getD "" == ip) = false from by simp [hk]]
          rw [Bool.and_false]
          rfl
      · rw [show insertStep cfg p acc client = acc from by simp [insertStep, ha],
          show authOk cfg p client = false from by revert ha; cases authOk cfg p client <;> simp]
        rw [Bool.false_and]
        rfl

/-- The refresh fold holds an entry at `ip` exactly when some listed
client is authorized and keyed at `ip`. -/
lemma lastAuthorized_isSome (cfg : Config) (p : Provider) (ip : String)
    (clients : List RawClient) :
    (lastAuthorized cfg p ip clients).isSome
      = clients.any
          (fun c => authOk cfg p c && (c.connection_client_ip.getD "" == ip)) := by
  induction clients with
  | nil => rfl
  | cons client rest ih =>
    rw [List.any_cons]
    show (match lastAuthorized cfg p ip rest with
      | some c => some c
      | none =>
        if authOk cfg p client && (client.connection_client_ip.getD "" == ip)
        then some client else none).isSome = _
    cases hlast : lastAuthorized cfg p ip rest with
    | some c =>
      have hany : rest.any
          (fun c => authOk cfg p c && (c.connection_client_ip.getD "" == ip)) = true := by
        rw [← ih, hlast]; rfl
      rw [hany, Bool.or_true]
      rfl
    | none =>
      have hany : rest.any
          (fun c => authOk cfg p c && (c.connection_client_ip.getD "" == ip)) = false := by
        rw [← ih, hlast]; rfl
      rw [hany, Bool.or_false]
      cases hc : authOk cfg p client && (client.connection_client_ip.getD "" == ip)
      · rfl
      · rfl

/-- No task of the initial state is in the critical section. -/
lemma countCritical_replicate (n : Nat) :
    countCritical (List.replicate n RPhase.idle) = 0 := by
  induction n with
  | zero => rfl
  | succ n ih => simpa [List.replicate, countCritical] using ih

/-- How writing one task's phase moves the critical-section count. -/
lemma countCritical_set (l : List RPhase) (i : Nat) (x a : RPhase)
    (h : l.get? i = some x) :
    countCritical (l.set i a) + (if x = RPhase.critical then 1 else 0)
      = countCritical l + (if a = RPhase.critical then 1 else 0) := by
  induction l generalizing i with
  | nil => simp at h
  | cons y t ih =>
    cases i with
    | zero =>
      simp only [List.get?] at h
      injection h with h
      subst h
      simp only [List.set, countCritical]
      omega
    | succ i =>
      simp only [List.get?] at h
      have := ih i h
      simp only [List.set, countCritical]
      omega

/-- A task observed in the critical section makes the count positive. -/
lemma countCritical_pos (l : List RPhase) (i : Nat)
    (h : l.get? i = some RPhase.critical) : 1 ≤ countCritical l := by
  induction l generalizing i with
  | nil => simp at h
  | cons y t ih =>
    cases i with
    | zero =>
      simp only [List.get?] at h
      injection h with h
      subst h
      show 1 ≤ (if RPhase.critical = RPhase.critical then 1 else 0) + countCritical t
      rw [if_pos rfl]
      omega
    | succ i =>
      simp only [List.get?] at h
      have := ih i h
      simp only [countCritical]
      omega

/-- Every scheduler step preserves the lock invariant. -/
lemma lockInv_step {s s' : LockSys} (h : LStep s s') (hinv : LockInv s) :
    LockInv s' := by
  cases h with
  | request i hi =>
    have hc := countCritical_set s.tasks i RPhase.idle RPhase.waiting hi
    rw [show (if RPhase.idle = RPhase.critical then (1 : Nat) else 0) = 0 from rfl,
      show (if RPhase.waiting = RPhase.critical then (1 : Nat) else 0) = 0 from rfl] at hc
    rcases hinv with ⟨hl, hcnt⟩ | ⟨hl, hcnt⟩
    · exact Or.inl ⟨hl,
        show countCritical (s.tasks.set i RPhase.waiting) = 0 by omega⟩
    · exact Or.inr ⟨hl,
        show countCritical (s.tasks.set i RPhase.waiting) = 1 by omega⟩
  | acquire i hi hl0 =>
    have hc := countCritical_set s.tasks i RPhase.waiting RPhase.critical hi
    rw [show (if RPhase.waiting = RPhase.critical then (1 : Nat) else 0) = 0 from rfl,
      show (if RPhase.critical = RPhase.critical then (1 : Nat) else 0) = 1 from rfl] at hc
    rcases hinv with ⟨hl, hcnt⟩ | ⟨hl, hcnt⟩
    · exact Or.inr ⟨rfl,
        show countCritical (s.tasks.set i RPhase.critical) = 1 by omega⟩
    · rw [hl] at hl0
      exact absurd hl0 (by simp)
  | release i hi =>
    have hpos := countCritical_pos s.tasks i hi
    have hc := countCritical_set s.tasks i RPhase.critical RPhase.done hi
    rw [show (if RPhase.critical = RPhase.critical then (1 : Nat) else 0) = 1 from rfl,
      show (if RPhase.done = RPhase.critical then (1 : Nat) else 0) = 0 from rfl] at hc
    rcases hinv with ⟨hl, hcnt⟩ | ⟨hl, hcnt⟩
    · omega
    · exact Or.inl ⟨rfl,
        show countCritical (s.tasks.set i RPhase.done) = 0 by omega⟩

/-- The lock invariant holds in every reachable state. -/
lemma lockInv_reachable (n : Nat) (s : LockSys) (h : LockReachable n s) :
    LockInv s := by
  induction h with
  | refl => exact Or.inl ⟨rfl, countCritical_replicate n⟩
  | tail hab hbc ih => exact lockInv_step hbc ih

/-- A concrete interleaving: the scheduled refresh (task 0) starts and
enters its critical section, then a `refresh_now` (task 1) arrives
while it is running. -/
lemma lockTrace_mid :
    Relation.ReflTransGen LStep (LockSys.init 2)
      ⟨[RPhase.critical, RPhase.waiting], true, 0⟩ := by
  have h1 : LStep (LockSys.init 2) ⟨[RPhase.waiting, RPhase.idle], false, 0⟩ :=
    LStep.request (LockSys.init 2) 0 rfl
  have h2 : LStep ⟨[RPhase.waiting, RPhase.idle], false, 0⟩
      ⟨[RPhase.critical, RPhase.idle], true, 0⟩ :=
    LStep.acquire ⟨[RPhase.waiting, RPhase.idle], false, 0⟩ 0 rfl rfl
  have h3 : LStep ⟨[RPhase.critical, RPhase.idle], true, 0⟩
      ⟨[RPhase.critical, RPhase.waiting], true, 0⟩ :=
    LStep.request ⟨[RPhase.critical, RPhase.idle], true, 0⟩ 1 rfl
  exact Relation.ReflTransGen.tail
    (Relation.ReflTransGen.tail (Relation.ReflTransGen.single h1) h2) h3

/-- Continuation of the interleaving: the first refresh completes and
releases, then the waiting `refresh_now` acquires the lock and runs its
own refresh cycle to completion. -/
lemma lockTrace_end :
    Relation.ReflTransGen LStep ⟨[RPhase.critical, RPhase.waiting], true, 0⟩
      ⟨[RPhase.done, RPhase.done], false, 2⟩ := by
  have h4 : LStep ⟨[RPhase.critical, RPhase.waiting], true, 0⟩
      ⟨[RPhase.done, RPhase.waiting], false, 1⟩ :=
    LStep.release ⟨[RPhase.critical, RPhase.waiting], true, 0⟩ 0 rfl
  have h5 : LStep ⟨[RPhase.done, RPhase.waiting], false, 1⟩
      ⟨[RPhase.done, RPhase.critical], true, 1⟩ :=
    LStep.acquire ⟨[RPhase.done, RPhase.waiting], false, 1⟩ 1 rfl rfl
  have h6 : LStep ⟨[RPhase.done, RPhase.critical], true, 1⟩
      ⟨[RPhase.done, RPhase.done], false, 2⟩ :=
    LStep.release ⟨[RPhase.done, RPhase.critical], true, 1⟩ 1 rfl
  exact Relation.ReflTransGen.tail
    (Relation.ReflTransGen.tail (Relation.ReflTransGen.single h4) h5) h6

/-- What a successful refresh publishes at each key: the entry of the
last authorized client (in listing order, after the query-client
filter) carrying that address. -/
lemma snapshot_lookup (cfg : Config) (p : Provider) (clients : List RawClient)
    (snap : List (String × ClientEntry))
    (hl : p.clientlist = Except.ok clients)
    (hs : get_authorized_clients cfg p true = Except.ok snap) (ip : String) :
    snap.lookup ip
      = (lastAuthorized cfg p ip
          (clients.filter (fun c => c.client_type = some "0"))).map (entryOf p) := by
  have hcc : get_connected_clients p true
      = Except.ok (clients.filter (fun c => c.client_type = some "0")) := by
    unfold get_connected_clients
    rw [hl]
    rfl
  have h2 : processClients cfg p true
      (clients.filter (fun c => c.client_type = some "0")) [] = Except.ok snap := by
    rw [← hs]
    unfold get_authorized_clients
    rw [hcc]
  rw [processClients_ok] at h2
  injection h2 with h2
  rw [← h2, lookup_insertSteps]
  cases lastAuthorized cfg p ip (clients.filter (fun c => c.client_type = some "0")) <;>
    rfl

/-! ## Claim theorems -/

/-- **C1**: for every IP string and cache state, `is_authorized` is the
disjunction of the subnet check and snapshot-key membership; the subnet
check comes first and short-circuits, so a subnet-authorized IP is
authorized whatever the snapshot holds; and with an empty configured
subnet list the subnet check is unconditionally false. -/
theorem C1_is_authorized_iff (cfg : Config) (st : ServiceState) (ip : String) :
    (is_authorized cfg st ip
      = (is_in_authorized_subnet cfg ip || (st.authorized_ips.lookup ip).isSome))
    ∧ (cfg.authorized_subnets = [] → is_in_authorized_subnet cfg ip = false)
    ∧ (is_in_authorized_subnet cfg ip = true → is_authorized cfg st ip = true) := by
  refine ⟨?_, ?_, ?_⟩
  · unfold is_authorized
    cases h : is_in_authorized_subnet cfg ip <;> simp [h]
  · intro h
    unfold is_in_authorized_subnet
    simp [h]
  · intro h
    unfold is_authorized
    simp [h]

/-- C1 applied at concrete inputs: an IP authorized by subnet alone on
the empty snapshot, and the empty subnet list giving a false subnet
check. -/
theorem C1_witness :
    is_authorized ⟨[6, 9], ["10.0.0.0/8"]⟩ ServiceState.init "10.1.2.3" = true
    ∧ is_in_authorized_subnet ⟨[6, 9], []⟩ "10.1.2.3" = false :=
  ⟨(C1_is_authorized_iff ⟨[6, 9], ["10.0.0.0/8"]⟩ ServiceState.init "10.1.2.3").2.2
      (by decide),
   (C1_is_authorized_iff ⟨[6, 9], []⟩ ServiceState.init "10.1.2.3").2.1 rfl⟩

/-- **C2**: when the refresh cycle fails (connect failure or a raise
anywhere in the fetch), the snapshot and `last_update` after the cycle
are exactly what they were before, so every `is_authorized` and
`get_authorized_user_info` answer is unchanged. -/
theorem C2_no_clobber (cfg : Config) (p : Provider) (now : Nat) (st : ServiceState)
    (h : (fetch_authorized_clients cfg p st.connection).1 = Except.error ()) :
    (update_authorized_users cfg p now st).authorized_ips = st.authorized_ips
    ∧ (update_authorized_users cfg p now st).last_update = st.last_update
    ∧ (∀ ip, is_authorized cfg (update_authorized_users cfg p now st) ip
        = is_authorized cfg st ip)
    ∧ (∀ ip, get_authorized_user_info (update_authorized_users cfg p now st) ip
        = get_authorized_user_info st ip) := by
  rw [update_fail_eq cfg p now st h]
  exact ⟨rfl, rfl, fun ip => rfl, fun ip => rfl⟩

/-- C2 applied to a failing provider over a populated cache state. -/
theorem C2_witness :
    (fetch_authorized_clients emptyCfg failProvider sampleState.connection).1
      = Except.error ()
    ∧ (update_authorized_users emptyCfg failProvider 100 sampleState).authorized_ips
        = sampleState.authorized_ips
    ∧ is_authorized emptyCfg (update_authorized_users emptyCfg failProvider 100 sampleState)
        "1.2.3.4"
      = is_authorized emptyCfg sampleState "1.2.3.4" :=
  ⟨rfl, (C2_no_clobber emptyCfg failProvider 100 sampleState rfl).1,
   (C2_no_clobber emptyCfg failProvider 100 sampleState rfl).2.2.1 "1.2.3.4"⟩

/-- **C4**: when the provider session fails unrecoverably, the session
is dropped (so the next attempt reconnects from scratch), the failure
is propagated no further than the refresh cycle (`update_authorized_users`
returns normally with the snapshot intact), and the periodic loop goes
on to process every remaining tick. -/
theorem C4_failure_isolated (cfg : Config) (p : Provider) (st : ServiceState)
    (h : (fetch_authorized_clients cfg p st.connection).1 = Except.error ()) :
    (fetch_authorized_clients cfg p st.connection).2 = false
    ∧ (∀ now, (update_authorized_users cfg p now st).connection = false)
    ∧ (∀ now, (update_authorized_users cfg p now st).authorized_ips = st.authorized_ips)
    ∧ (∀ now ticks, periodic_update cfg ((p, now) :: ticks) st
        = periodic_update cfg ticks (update_authorized_users cfg p now st)) := by
  refine ⟨fetch_fail_drops_connection cfg p st.connection h, ?_, ?_, ?_⟩
  · intro now; rw [update_fail_eq cfg p now st h]
  · intro now; rw [update_fail_eq cfg p now st h]
  · intro now ticks; rfl

/-- C4 applied to a failing provider over a populated cache state. -/
theorem C4_witness :
    (fetch_authorized_clients emptyCfg failProvider sampleState.connection).1
      = Except.error ()
    ∧ (fetch_authorized_clients emptyCfg failProvider sampleState.connection).2 = false
    ∧ (update_authorized_users emptyCfg failProvider 100 sampleState).connection = false :=
  ⟨rfl, (C4_failure_isolated emptyCfg failProvider sampleState rfl).1,
   (C4_failure_isolated emptyCfg failProvider sampleState rfl).2.1 100⟩

/-- **C7**: `is_authorized`'s subnet path is total over arbitrary
strings: the loop equals a pure `any` over the configured ranges in
which an unparseable IP yields false and an unparseable range
contributes false (it is skipped) while the remaining ranges are still
evaluated — demonstrated concretely by a malformed range alongside a
valid one that still authorizes. -/
theorem C7_subnet_check_total (cfg : Config) (ip : String) :
    (is_in_authorized_subnet cfg ip
      = match parseIPAddress ip with
        | none => false
        | some a =>
          cfg.authorized_subnets.any (fun subnet_str =>
            match parseIPNetwork subnet_str with
            | none => false
            | some subnet => subnetContains subnet a))
    ∧ (parseIPAddress ip = none → is_in_authorized_subnet cfg ip = false)
    ∧ is_in_authorized_subnet ⟨[], ["not-a-cidr", "10.0.0.0/8"]⟩ "10.1.2.3" = true := by
  have key : ∀ cfg' : Config, is_in_authorized_subnet cfg' ip
      = match parseIPAddress ip with
        | none => false
        | some a =>
          cfg'.authorized_subnets.any (fun subnet_str =>
            match parseIPNetwork subnet_str with
            | none => false
            | some subnet => subnetContains subnet a) := by
    intro cfg'
    unfold is_in_authorized_subnet
    rcases hl : cfg'.authorized_subnets with _ | ⟨a, l⟩ <;>
      cases h : parseIPAddress ip <;> simp
  refine ⟨key cfg, ?_, by decide⟩
  intro h
  rw [key cfg, h]

/-- C7 applied at a concrete unparseable IP. -/
theorem C7_witness :
    parseIPAddress "not-an-ip" = none
    ∧ is_in_authorized_subnet ⟨[6, 9], ["10.0.0.0/8"]⟩ "not-an-ip" = false :=
  ⟨by decide,
   (C7_subnet_check_total ⟨[6, 9], ["10.0.0.0/8"]⟩ "not-an-ip").2.1 (by decide)⟩

/-- **C8 counterexample**: before the first successful refresh
`get_cache_age` does not reflect time since process start — it is the
time since the epoch, because `last_update` starts at 0. A process
started at wall-clock second 1000 and queried at 1005 reports age 1005,
not the 5 seconds elapsed since process start. -/
theorem C8_counterexample :
    get_cache_age 1005 ServiceState.init = 1005
    ∧ (1005 : Int) ≠ 1005 - 1000 := by
  exact ⟨rfl, by decide⟩

/-- **C8 (amended)**: `get_cache_age` equals the current time minus
`last_update` and is non-negative whenever the clock has not moved
backwards past `last_update`; `last_update` starts at the epoch (zero),
so before the first successful refresh the age equals the full
wall-clock time since the epoch (large until the first refresh); and a
query issued at the instant a successful refresh stamped `last_update`
reads age zero. -/
theorem C8_cache_age (now : Nat) (st : ServiceState) :
    (get_cache_age now st = (now : Int) - (st.last_update : Int))
    ∧ (st.last_update ≤ now → 0 ≤ get_cache_age now st)
    ∧ ServiceState.init.last_update = 0
    ∧ get_cache_age now ServiceState.init = (now : Int)
    ∧ (∀ cfg p d conn,
        fetch_authorized_clients cfg p st.connection = (Except.ok d, conn) →
        get_cache_age now (update_authorized_users cfg p now st) = 0) := by
  refine ⟨rfl, ?_, rfl, by simp [get_cache_age, ServiceState.init], ?_⟩
  · intro h
    unfold get_cache_age
    omega
  · intro cfg p d conn h
    unfold update_authorized_users
    rw [h]
    simp [get_cache_age]

/-- C8 applied at concrete times, with a successful refresh at time 7. -/
theorem C8_witness :
    (ServiceState.init.last_update ≤ 5 ∧ 0 ≤ get_cache_age 5 ServiceState.init)
    ∧ fetch_authorized_clients emptyCfg okProvider ServiceState.init.connection
        = (Except.ok [], true)
    ∧ get_cache_age 7 (update_authorized_users emptyCfg okProvider 7 ServiceState.init)
        = 0 :=
  ⟨⟨by decide, (C8_cache_age 5 ServiceState.init).2.1 (by decide)⟩,
   rfl,
   (C8_cache_age 7 ServiceState.init).2.2.2.2 emptyCfg okProvider [] true rfl⟩

/-- **C3**: after a successful refresh the snapshot has an entry at a
key exactly when some listed entity is authorized there: non-falsy
identity key, non-falsy address, and groups (a failed per-entity lookup
counting as no groups) intersecting the required set under string
normalization. Concretely, with required groups {6, 9} and entities
A(10.0.0.5, [6]), B(10.0.0.6, [3]), C(no address, [9]): after refresh
10.0.0.5 is authorized, 10.0.0.6 is not, and C is absent. -/
theorem C3_refresh_membership (cfg : Config) (p : Provider)
    (clients : List RawClient) (snap : List (String × ClientEntry))
    (hl : p.clientlist = Except.ok clients)
    (hs : get_authorized_clients cfg p true = Except.ok snap) :
    (∀ ip, (snap.lookup ip).isSome
      = (clients.filter (fun c => c.client_type = some "0")).any
          (fun c => authOk cfg p c && (c.connection_client_ip.getD "" == ip)))
    ∧ (update_authorized_users exampleCfg exampleProvider 100 ServiceState.init).authorized_ips
        = [("10.0.0.5", ⟨some "A", ["6"], some "1", "11"⟩)]
    ∧ is_authorized exampleCfg
        (update_authorized_users exampleCfg exampleProvider 100 ServiceState.init)
        "10.0.0.5" = true
    ∧ is_authorized exampleCfg
        (update_authorized_users exampleCfg exampleProvider 100 ServiceState.init)
        "10.0.0.6" = false := by
  refine ⟨?_, rfl, rfl, rfl⟩
  intro ip
  rw [snapshot_lookup cfg p clients snap hl hs ip, ← lastAuthorized_isSome]
  cases lastAuthorized cfg p ip (clients.filter (fun c => c.client_type = some "0")) <;>
    rfl

/-- C3 applied to the spec's example roster, its hypotheses computed. -/
theorem C3_witness :
    exampleProvider.clientlist = Except.ok [clientA, clientB, clientC]
    ∧ get_authorized_clients exampleCfg exampleProvider true
        = Except.ok [("10.0.0.5", ⟨some "A", ["6"], some "1", "11"⟩)]
    ∧ is_authorized exampleCfg
        (update_authorized_users exampleCfg exampleProvider 100 ServiceState.init)
        "10.0.0.5" = true :=
  ⟨rfl, rfl,
   (C3_refresh_membership exampleCfg exampleProvider [clientA, clientB, clientC]
      [("10.0.0.5", ⟨some "A", ["6"], some "1", "11"⟩)] rfl rfl).2.2.1⟩

/-- **C9**: the client-type filter runs before the authorization loop,
so an entity whose `client_type` is not `"0"` never reaches the
snapshot: any key carried only by such entities is absent, whatever
their addresses and groups. -/
theorem C9_query_clients_excluded (cfg : Config) (p : Provider)
    (clients : List RawClient) (snap : List (String × ClientEntry)) (ip : String)
    (hl : p.clientlist = Except.ok clients)
    (hs : get_authorized_clients cfg p true = Except.ok snap)
    (hq : ∀ c ∈ clients, c.connection_client_ip.getD "" = ip →
      c.client_type ≠ some "0") :
    get_connected_clients p true
      = Except.ok (clients.filter (fun c => c.client_type = some "0"))
    ∧ snap.lookup ip = none := by
  constructor
  · unfold get_connected_clients
    rw [hl]
    rfl
  · rw [snapshot_lookup cfg p clients snap hl hs ip]
    have hnone : lastAuthorized cfg p ip
        (clients.filter (fun c => c.client_type = some "0")) = none := by
      have hiss : (lastAuthorized cfg p ip
          (clients.filter (fun c => c.client_type = some "0"))).isSome = false := by
        rw [lastAuthorized_isSome]
        rw [List.any_eq_false]
        intro c hc
        rw [List.mem_filter] at hc
        have htype : c.client_type = some "0" := by simpa using hc.2
        intro hand
        rw [Bool.and_eq_true] at hand
        have hkey : c.connection_client_ip.getD "" = ip := by
          have := hand.2
          simpa using this
        exact hq c hc.1 hkey htype
      cases hfin : lastAuthorized cfg p ip
          (clients.filter (fun c => c.client_type = some "0"))
      · rfl
      · rw [hfin] at hiss
        simp at hiss
    rw [hnone]
    rfl

/-- C9 applied to a roster holding one query client at 10.0.0.7. -/
theorem C9_witness :
    get_authorized_clients exampleCfg queryProvider true = Except.ok []
    ∧ List.lookup "10.0.0.7" ([] : List (String × ClientEntry)) = none :=
  ⟨rfl,
   (C9_query_clients_excluded exampleCfg queryProvider [queryClient] [] "10.0.0.7"
      rfl rfl (by decide)).2⟩

/-- **C10**: the snapshot maps every address to at most one entry — the
one built from the last entity in listing order that is authorized at
that address (later dict assignments overwrite earlier ones), shown
concretely by two authorized entities sharing 10.0.0.5. -/
theorem C10_last_wins (cfg : Config) (p : Provider)
    (clients : List RawClient) (snap : List (String × ClientEntry))
    (hl : p.clientlist = Except.ok clients)
    (hs : get_authorized_clients cfg p true = Except.ok snap) :
    (∀ ip, snap.lookup ip
      = (lastAuthorized cfg p ip
          (clients.filter (fun c => c.client_type = some "0"))).map (entryOf p))
    ∧ get_authorized_clients exampleCfg dupProvider true
        = Except.ok [("10.0.0.5", ⟨some "A2", ["9"], some "4", "14"⟩)] :=
  ⟨fun ip => snapshot_lookup cfg p clients snap hl hs ip, rfl⟩

/-- C10 applied to the duplicated-address roster. -/
theorem C10_witness :
    List.lookup "10.0.0.5"
        [("10.0.0.5", (⟨some "A2", ["9"], some "4", "14"⟩ : ClientEntry))]
      = (lastAuthorized exampleCfg dupProvider "10.0.0.5"
          ([clientA, clientA2].filter (fun c => c.client_type = some "0"))).map
          (entryOf dupProvider) :=
  (C10_last_wins exampleCfg dupProvider [clientA, clientA2]
      [("10.0.0.5", ⟨some "A2", ["9"], some "4", "14"⟩)] rfl rfl).1 "10.0.0.5"

/-- **C5**: at most one refresh cycle executes at any time: in every
state reachable under any interleaving of scheduler ticks and manual
`refresh_now` calls, at most one invocation of
`update_authorized_users` is inside the lock-guarded critical section —
hence at most one provider connect is in flight at a time, and a
refresh requested while one runs waits rather than overlapping it. -/
theorem C5_mutual_exclusion (n : Nat) (s : LockSys) (h : LockReachable n s) :
    countCritical s.tasks ≤ 1 := by
  rcases lockInv_reachable n s h with ⟨_, hc⟩ | ⟨_, hc⟩ <;> omega

/-- C5 applied to a reachable state in which a scheduled refresh is in
its critical section while a `refresh_now` waits. -/
theorem C5_witness :
    LockReachable 2 ⟨[RPhase.critical, RPhase.waiting], true, 0⟩
    ∧ countCritical [RPhase.critical, RPhase.waiting] ≤ 1 :=
  ⟨lockTrace_mid,
   C5_mutual_exclusion 2 ⟨[RPhase.critical, RPhase.waiting], true, 0⟩ lockTrace_mid⟩

/-- **C6 counterexample**: one in-flight refresh plus one `refresh_now`
requested while it runs do NOT produce exactly one executed refresh
cycle. From the state with task 0 (the in-flight refresh) in its
critical section and task 1 (the `refresh_now`) waiting on the lock,
the execution completes with `completed = 2`: the waiting call acquires
the lock after the first cycle finishes and runs a full second refresh
cycle of its own, and 2 ≠ 1. -/
theorem C6_counterexample :
    Relation.ReflTransGen LStep (LockSys.init 2)
      ⟨[RPhase.critical, RPhase.waiting], true, 0⟩
    ∧ Relation.ReflTransGen LStep ⟨[RPhase.critical, RPhase.waiting], true, 0⟩
        ⟨[RPhase.done, RPhase.done], false, 2⟩
    ∧ (LockSys.mk [RPhase.done, RPhase.done] false 2).completed ≠ 1 :=
  ⟨lockTrace_mid, lockTrace_end, by decide⟩

/-- **C6 (amended)**: a `refresh_now` invoked while a refresh is
already running waits for the in-flight refresh rather than overlapping
it: in every reachable state at most one invocation is critical, and
while any invocation is critical the lock is held, so no acquire step
is enabled for the waiter. Once the in-flight cycle releases, the
waiting call runs its own full refresh cycle, so the pair completes
with two serialized refresh cycles (not one). -/
theorem C6_refresh_now_serialized :
    (∀ s : LockSys, LockReachable 2 s →
      countCritical s.tasks ≤ 1
      ∧ (1 ≤ countCritical s.tasks → s.locked = true))
    ∧ LockReachable 2 ⟨[RPhase.done, RPhase.done], false, 2⟩ := by
  constructor
  · intro s hs
    rcases lockInv_reachable 2 s hs with ⟨hl, hc⟩ | ⟨hl, hc⟩
    · refine ⟨by omega, fun h1 => ?_⟩
      omega
    · exact ⟨by omega, fun _ => hl⟩
  · exact Relation.ReflTransGen.trans lockTrace_mid lockTrace_end

/-- C6 (amended) applied to the overlap state: with the first refresh
mid-cycle and the `refresh_now` waiting, the lock is held. -/
theorem C6_witness :
    LockReachable 2 ⟨[RPhase.critical, RPhase.waiting], true, 0⟩
    ∧ (LockSys.mk [RPhase.critical, RPhase.waiting] true 0).locked = true :=
  ⟨lockTrace_mid,
   (C6_refresh_now_serialized.1 ⟨[RPhase.critical, RPhase.waiting], true, 0⟩
      lockTrace_mid).2 (by decide)⟩

end TeamspeakAuth
